import Mathlib

/-!
Shallow embedding of the tracing, span-recorder and transport-policy parts of
the sentry-go SDK (span_context.go, tracing.go, span_recorder.go, and the
transport behavior exercised by transport_test.go).

Conventions of the embedding:
- Go byte arrays ([16]byte, [8]byte) are lists of `Nat`, each element < 256.
- `time.Time` values are `Nat`; `0` models the zero time (`IsZero`).
- Pointers that the Go code dereferences (`s.parent`, the shared span
  recorder) are passed explicitly: the parent as an `Option Span`, the
  recorder's contents as a `List Span` state threaded through `record`.
- Randomness (fresh IDs, the fixed-rate sampler's draw) is passed in as
  explicit parameters.
-/

namespace Sentry

/-- The tri-state trace sampling decision (span_context.go):
`SampledFalse`, `SampledUndefined` (default), `SampledTrue`. -/
inductive Sampled where
  | SampledFalse
  | SampledUndefined
  | SampledTrue
deriving DecidableEq, Repr

export Sampled (SampledFalse SampledUndefined SampledTrue)

/-- SpanStatus is a uint8 enum in tracing.go; its numeric value is all the
claims need. -/
def SpanStatus := Nat
deriving instance DecidableEq, Repr for SpanStatus

/-- A Span (tracing.go). The `ctx`, `parent` pointer and `recorder` pointer of
the Go struct are modelled by explicit parameter passing, so only the data
fields remain. -/
structure Span where
  TraceID : List Nat := List.replicate 16 0
  SpanID : List Nat := List.replicate 8 0
  ParentSpanID : List Nat := List.replicate 8 0
  Op : String := ""
  Description : String := ""
  Status : SpanStatus := (0 : Nat)
  Tags : List (String × String) := []
  StartTime : Nat := 0
  EndTime : Nat := 0
  Sampled : Sampled := SampledUndefined
  isTransaction : Bool := false
deriving DecidableEq, Repr

/-- The zero value of SpanID used for comparisons (tracing.go `zeroSpanID`). -/
def zeroSpanID : List Nat := List.replicate 8 0

/-- A TraceContext carries information about an ongoing trace (tracing.go). -/
structure TraceContext where
  TraceID : List Nat
  SpanID : List Nat
  ParentSpanID : List Nat
  Op : String
  Description : String
  Status : SpanStatus
deriving DecidableEq, Repr

/-- `Span.traceContext` (tracing.go). -/
def Span.traceContext (s : Span) : TraceContext :=
  { TraceID := s.TraceID
    SpanID := s.SpanID
    ParentSpanID := s.ParentSpanID
    Op := s.Op
    Description := s.Description
    Status := s.Status }

/-- A Go `interface\x7b\x7d` value stored in the free-form maps of an event
(Breadcrumb.Data, Event.Extra, Event.Contexts, Frame.Vars). `fn` models a
`func()` value, which `encoding/json` cannot marshal (the
`unserializableType` of transport_test.go); `trace` models the
`TraceContext` stored under the "trace" key of Event.Contexts. -/
inductive GoValue where
  | str : String → GoValue
  | num : Int → GoValue
  | boolean : Bool → GoValue
  | fn : GoValue
  | trace : TraceContext → GoValue
deriving DecidableEq, Repr

/-- Whether `encoding/json` can marshal the value: everything except a
function value. -/
def GoValue.serializable : GoValue → Bool
  | .fn => false
  | _ => true

/-- Breadcrumb (interfaces.go), restricted to the fields the claims exercise. -/
structure Breadcrumb where
  Message : String := ""
  Data : List (String × GoValue) := []
deriving DecidableEq, Repr

/-- Frame (stacktrace.go), restricted to the fields the claims exercise. -/
structure Frame where
  Function : String := ""
  Vars : List (String × GoValue) := []
deriving DecidableEq, Repr

/-- Stacktrace (stacktrace.go). -/
structure Stacktrace where
  Frames : List Frame := []
deriving DecidableEq, Repr

/-- Exception (interfaces.go), restricted to the fields the claims exercise.
`ExceptionType` renders the Go field `Type` (a Lean keyword). -/
structure Exception where
  ExceptionType : String := ""
  Value : String := ""
  Stacktrace : Option Stacktrace := none
deriving DecidableEq, Repr

/-- Event (interfaces.go plus the transaction fields used by
`Span.toEvent` in tracing.go), restricted to the fields the claims
exercise. `EventType` renders the Go field `Type` (a Lean keyword). -/
structure Event where
  EventType : String := ""
  Message : String := ""
  Transaction : String := ""
  Breadcrumbs : List Breadcrumb := []
  Extra : List (String × GoValue) := []
  Contexts : List (String × GoValue) := []
  Exception : List Exception := []
  Tags : List (String × String) := []
  Timestamp : Nat := 0
  StartTime : Nat := 0
  Spans : List Span := []
deriving DecidableEq, Repr

/-- Event type of transaction events (`transactionType`). -/
def transactionType : String := "transaction"

/- ### Hex encoding (encoding/hex), as used by TraceID.Hex, SpanID.Hex and
updateFromSentryTrace. -/

/-- Lowercase hex digit for a value < 16 (encoding/hex `hextable`). -/
def hexDigitChar (n : Nat) : Char :=
  if n < 10 then Char.ofNat ('0'.toNat + n) else Char.ofNat ('a'.toNat + (n - 10))

/-- encoding/hex `fromHexChar`: the value of a hex digit, or `none`. -/
def fromHexChar (c : Char) : Option Nat :=
  if '0' ≤ c ∧ c ≤ '9' then some (c.toNat - '0'.toNat)
  else if 'a' ≤ c ∧ c ≤ 'f' then some (c.toNat - 'a'.toNat + 10)
  else if 'A' ≤ c ∧ c ≤ 'F' then some (c.toNat - 'A'.toNat + 10)
  else none

/-- A character matched by the `[[:xdigit:]]` class of `sentryTracePattern`. -/
def isXDigit (c : Char) : Bool := (fromHexChar c).isSome

/-- encoding/hex `Encode`: each byte becomes two lowercase hex digits. -/
def hexEncode : List Nat → List Char
  | [] => []
  | b :: bs => hexDigitChar (b / 16) :: hexDigitChar (b % 16) :: hexEncode bs

/-- encoding/hex `Decode` on a valid even-length hex string: each pair of
digits becomes one byte. (updateFromSentryTrace only applies it to
regex-validated groups, where decoding cannot fail.) -/
def hexDecode : List Char → List Nat
  | c1 :: c2 :: cs =>
      (16 * ((fromHexChar c1).getD 0) + (fromHexChar c2).getD 0) :: hexDecode cs
  | _ => []

/- ### sentry-trace header encoding and parsing (span_context.go) -/

/-- The regular expression `sentryTracePattern`
`^([[:xdigit:]]\x7b32\x7d)-([[:xdigit:]]\x7b16\x7d)(?:-([01]))?$` as a
submatch extractor: on a match, returns the trace-id group, the span-id
group, and the optional sampled-flag group. -/
def sentryTraceMatch (h : List Char) : Option (List Char × List Char × Option Char) :=
  let t := h.take 32
  match h.drop 32 with
  | d :: rest2 =>
    let sp := rest2.take 16
    if d = '-' ∧ t.length = 32 ∧ sp.length = 16 ∧ t.all isXDigit ∧ sp.all isXDigit then
      match rest2.drop 16 with
      | [] => some (t, sp, none)
      | [d2, c] => if d2 = '-' ∧ (c = '0' ∨ c = '1') then some (t, sp, some c) else none
      | _ => none
    else none
  | [] => none

/-- `Span.ToSentryTrace` (span_context.go): `TraceID.Hex()-SpanID.Hex()`,
with a `-1`/`-0` suffix exactly when the decision is explicitly
true/false. -/
def Span.toSentryTrace (s : Span) : List Char :=
  hexEncode s.TraceID ++ ['-'] ++ hexEncode s.SpanID ++
    (match s.Sampled with
      | SampledTrue => ['-', '1']
      | SampledFalse => ['-', '0']
      | SampledUndefined => [])

/-- `Span.updateFromSentryTrace` (span_context.go): parse a sentry-trace
header; on a match overwrite TraceID, ParentSpanID, and (when the flag group
is present) Sampled; otherwise leave the span unchanged. -/
def Span.updateFromSentryTrace (s : Span) (header : List Char) : Span :=
  match sentryTraceMatch header with
  | none => s
  | some (t, sp, flag) =>
    let s1 := { s with TraceID := hexDecode t, ParentSpanID := hexDecode sp }
    match flag with
    | none => s1
    | some c =>
      if c = '0' then { s1 with Sampled := SampledFalse }
      else if c = '1' then { s1 with Sampled := SampledTrue }
      else s1

/-- `ContinueFromRequest` (span_context.go) with the request's sentry-trace
header value passed explicitly: an empty header leaves the span unchanged,
otherwise the span is updated from the header. -/
def ContinueFromRequest (trace : List Char) : Span → Span :=
  fun s => if trace = [] then s else s.updateFromSentryTrace trace

/- ### Sampling and StartSpan (tracing.go) -/

/-- SamplingContext (passed to a TracesSampler): the span being sampled and
its local parent, if any. -/
structure SamplingContext where
  Span : Sentry.Span
  Parent : Option Sentry.Span

/-- The client options read by `Span.sample`: the optional custom sampler
(the Go `TracesSampler` interface is modelled as its `Sample` method) and the
fixed sample rate. -/
structure ClientOptions where
  TracesSampler : Option (SamplingContext → Bool) := none
  TracesSampleRate : ℚ := 0

/-- Modelled from the spec: `fixedRateSampler.Sample` lives in a source file
absent from the sources (only its call site in tracing.go is present). Per
the spec it is "a fixed-rate pseudorandom decision from the configured
sample rate": keep iff a uniform draw in [0,1) is below the rate. The
pseudorandom draw is passed in explicitly. -/
def fixedRateSample (rate draw : ℚ) : Bool := draw < rate

/-- `Span.sample` (tracing.go): the four-step sampling decision cascade.
The Go method reads `s.parent` and the hub's client options; here the parent
pointer, the options and the sampler's pseudorandom draw are explicit
parameters. -/
def Span.sample (s : Span) (parent : Option Span) (opts : ClientOptions)
    (draw : ℚ) : Bool :=
  if s.Sampled ≠ SampledUndefined then
    -- Sampling Decision #1: set by user via options.
    s.Sampled = SampledTrue
  else
    match opts.TracesSampler with
    | some sampler => sampler ⟨s, parent⟩ -- Sampling Decision #2
    | none =>
      match parent with
      | some p => p.Sampled = SampledTrue -- Sampling Decision #3
      | none => fixedRateSample opts.TracesSampleRate draw -- Sampling Decision #4

/-- `StartSpan` (tracing.go), with the context-stored parent, the fresh
random bytes for TraceID and SpanID, the current time and the sampler draw
passed explicitly. Returns the new span; its recording into the shared
recorder is modelled separately by `record`. -/
def startSpan (parent : Option Span) (operation : String) (now : Nat)
    (traceIDBytes spanIDBytes : List Nat) (options : List (Span → Span))
    (opts : ClientOptions) (draw : ℚ) : Span :=
  let hasParent := parent.isSome
  let span0 : Span :=
    { Op := operation
      StartTime := now
      isTransaction := !hasParent }
  let span1 :=
    match parent with
    | some p => { span0 with TraceID := p.TraceID }
    | none => { span0 with TraceID := traceIDBytes }
  let span2 := { span1 with SpanID := spanIDBytes }
  let span3 :=
    match parent with
    | some p => { span2 with ParentSpanID := p.SpanID }
    | none => span2
  -- Apply options to override defaults.
  let span4 := options.foldl (fun sp o => o sp) span3
  if span4.sample parent opts draw then { span4 with Sampled := SampledTrue }
  else { span4 with Sampled := SampledFalse }

/- ### Span recorder (span_recorder.go) -/

/-- maxSpans limits the number of recorded spans per transaction. -/
def maxSpans : Nat := 100

/-- `spanRecorder.record`: store a span unless the recorder is full. The
recorder's `spans` slice is the explicit state. -/
def record (spans : List Span) (s : Span) : List Span :=
  if spans.length < maxSpans then spans ++ [s] else spans

/-- `spanRecorder.children`: all recorded spans except the root; nil (here
`[]`) when fewer than two spans are recorded. -/
def children (spans : List Span) : List Span :=
  if spans.length < 2 then [] else spans.drop 1

/- ### Finish and toEvent (tracing.go) -/

/-- `Span.toEvent` (tracing.go): only a transaction (local root) span is
transformed into an event. The recorder contents and the scope's transaction
name are explicit parameters. -/
def Span.toEvent (s : Span) (recorderSpans : List Span)
    (transactionName : String) : Option Event :=
  if !s.isTransaction then none
  else
    some
      { EventType := transactionType
        Transaction := transactionName
        Contexts := [("trace", GoValue.trace s.traceContext)]
        Tags := s.Tags
        Timestamp := s.EndTime
        StartTime := s.StartTime
        Spans := children recorderSpans }

/-- `Span.Finish` (tracing.go): set EndTime unless already set; return
without emitting unless the span is sampled true and `toEvent` produces an
event; otherwise capture the event. `now` is the value of
`monotonicTimeSince(s.StartTime)` at the time of the call; the result is the
updated span together with the event handed to `hub.CaptureEvent`, if any. -/
def Span.finish (s : Span) (now : Nat) (recorderSpans : List Span)
    (transactionName : String) : Span × Option Event :=
  let s1 := if s.EndTime = 0 then { s with EndTime := now } else s
  if s1.Sampled ≠ SampledTrue then (s1, none)
  else
    match s1.toEvent recorderSpans transactionName with
    | none => (s1, none)
    | some ev => (s1, some ev)

/- ### Transport policies (transport.go is absent from the sources; only
transport_test.go is present) -/

/-- Whether every value of a free-form `map[string]interface\x7b\x7d` can be
marshalled by `encoding/json`. -/
def mapSerializable (m : List (String × GoValue)) : Bool :=
  m.all fun kv => kv.2.serializable

/-- Whether the `Vars` maps inside the Exception stack frames hold only
representable values. -/
def exceptionSerializable (e : Event) : Bool :=
  e.Exception.all fun ex =>
    match ex.Stacktrace with
    | some st => st.Frames.all fun fr => mapSerializable fr.Vars
    | none => true

/-- Whether `json.Marshal` succeeds on the whole event: every free-form map
reachable from it (breadcrumb data, extra, contexts, exception stack-frame
vars) holds only representable values. -/
def eventSerializable (e : Event) : Bool :=
  (e.Breadcrumbs.all fun b => mapSerializable b.Data) &&
  mapSerializable e.Extra &&
  mapSerializable e.Contexts &&
  exceptionSerializable e

/-- The diagnostic note inserted into Extra when the original event could not
be marshalled (transport_test.go `enhancedEvent`). -/
def marshalFallbackNote : String :=
  "Original event couldn't be marshalled. Succeeded by stripping the data " ++
  "that uses interface\x7b\x7d type. Please verify that the data you attach " ++
  "to the scope is serializable."

/-- The event retried after full serialization fails: Breadcrumbs and
Contexts stripped, Extra replaced by the diagnostic note. -/
def stripEvent (e : Event) : Event :=
  { e with
    Breadcrumbs := []
    Contexts := []
    Extra := [("info", GoValue.str marshalFallbackNote)] }

/-- Modelled from the spec: `getRequestBodyFromEvent` lives in transport.go,
which is absent from the sources; modelled from the spec's
serialize-with-fallback policy and transport_test.go. Serialize the event;
on failure retry with Breadcrumbs/Extra/Contexts stripped and a diagnostic
note in Extra; if that fails too, produce no body at all. The produced body
is modelled as the event that serialized successfully. -/
def getRequestBodyFromEvent (e : Event) : Option Event :=
  if eventSerializable e then some e
  else
    let stripped := stripEvent e
    if eventSerializable stripped then some stripped else none

/-- The numeric value of a digit string (most significant digit first). -/
def digitsVal (cs : List Char) : Nat :=
  cs.foldl (fun acc c => 10 * acc + (c.toNat - '0'.toNat)) 0

/-- strconv.Atoi on the header value: an optional sign followed by one or
more decimal digits; anything else fails. -/
def atoi (s : List Char) : Option Int :=
  match s with
  | [] => none
  | '-' :: rest =>
    if rest ≠ [] ∧ rest.all Char.isDigit then some (-(digitsVal rest : Int)) else none
  | '+' :: rest =>
    if rest ≠ [] ∧ rest.all Char.isDigit then some ((digitsVal rest : Int)) else none
  | _ => if s.all Char.isDigit then some ((digitsVal s : Int)) else none

/-- Modelled from the spec: `retryAfter` lives in transport.go, which is
absent from the sources; modelled from the spec's rate-limiting policy and
transport_test.go. Compute the rate-limit suspension in seconds from the
Retry-After header: the given number of seconds when the header is an
integer; the difference from `now` when it is an HTTP date (the date parser
`parseHTTPDate`, standing for `http.ParseTime`, is passed explicitly); 60
seconds when the header is absent or unparsable. -/
def retryAfter (now : Int) (header : Option (List Char))
    (parseHTTPDate : List Char → Option Int) : Int :=
  match header with
  | none => 60
  | some h =>
    match atoi h with
    | some n => n
    | none =>
      match parseHTTPDate h with
      | some date => date - now
      | none => 60

/-! ## Supporting lemmas -/

theorem fromHexChar_hexDigitChar : ∀ n, n < 16 → fromHexChar (hexDigitChar n) = some n := by
  decide

theorem isXDigit_hexDigitChar : ∀ n, n < 16 → isXDigit (hexDigitChar n) = true := by
  decide

theorem hexEncode_length (bs : List Nat) : (hexEncode bs).length = 2 * bs.length := by
  induction bs with
  | nil => rfl
  | cons b bs ih => simp [hexEncode, ih]; ring

theorem hexEncode_all_xdigit (bs : List Nat) (hb : ∀ b ∈ bs, b < 256) :
    (hexEncode bs).all isXDigit = true := by
  induction bs with
  | nil => rfl
  | cons b bs ih =>
    have h1 : b < 256 := hb b (by simp)
    have hdiv : b / 16 < 16 := Nat.div_lt_of_lt_mul (by omega)
    have hmod : b % 16 < 16 := Nat.mod_lt _ (by norm_num)
    simp only [hexEncode, List.all_cons, Bool.and_eq_true]
    exact ⟨isXDigit_hexDigitChar _ hdiv,
      isXDigit_hexDigitChar _ hmod, ih fun x hx => hb x (by simp [hx])⟩

theorem hexDecode_hexEncode (bs : List Nat) (hb : ∀ b ∈ bs, b < 256) :
    hexDecode (hexEncode bs) = bs := by
  induction bs with
  | nil => rfl
  | cons b bs ih =>
    have h1 : b < 256 := hb b (by simp)
    have hdiv : b / 16 < 16 := Nat.div_lt_of_lt_mul (by omega)
    have hmod : b % 16 < 16 := Nat.mod_lt _ (by norm_num)
    simp only [hexEncode, hexDecode, fromHexChar_hexDigitChar _ hdiv,
      fromHexChar_hexDigitChar _ hmod, Option.getD_some, Nat.div_add_mod]
    rw [ih fun x hx => hb x (by simp [hx])]

/-- On a header produced by `toSentryTrace` from well-formed IDs, the pattern
matches and extracts the two hex groups and the flag corresponding to the
sampling decision. -/
theorem sentryTraceMatch_toSentryTrace (s : Span)
    (hT : s.TraceID.length = 16) (hTb : ∀ b ∈ s.TraceID, b < 256)
    (hS : s.SpanID.length = 8) (hSb : ∀ b ∈ s.SpanID, b < 256) :
    sentryTraceMatch s.toSentryTrace =
      some (hexEncode s.TraceID, hexEncode s.SpanID,
        match s.Sampled with
        | SampledTrue => some '1'
        | SampledFalse => some '0'
        | SampledUndefined => none) := by
  have hTl : (hexEncode s.TraceID).length = 32 := by rw [hexEncode_length, hT]
  have hSl : (hexEncode s.SpanID).length = 16 := by rw [hexEncode_length, hS]
  have hTx := hexEncode_all_xdigit s.TraceID hTb
  have hSx := hexEncode_all_xdigit s.SpanID hSb
  have hshape : ∀ tail : List Char,
      sentryTraceMatch (hexEncode s.TraceID ++ ['-'] ++ hexEncode s.SpanID ++ tail) =
        match tail with
        | [] => some (hexEncode s.TraceID, hexEncode s.SpanID, none)
        | [d2, c] =>
          if d2 = '-' ∧ (c = '0' ∨ c = '1') then
            some (hexEncode s.TraceID, hexEncode s.SpanID, some c)
          else none
        | _ => none := by
    intro tail
    have hdrop : (hexEncode s.TraceID ++ ['-'] ++ hexEncode s.SpanID ++ tail).drop 32 =
        '-' :: (hexEncode s.SpanID ++ tail) := by
      rw [List.append_assoc, List.append_assoc, List.drop_left' hTl]
      rfl
    have htake : (hexEncode s.TraceID ++ ['-'] ++ hexEncode s.SpanID ++ tail).take 32 =
        hexEncode s.TraceID := by
      rw [List.append_assoc, List.append_assoc, List.take_left' hTl]
    unfold sentryTraceMatch
    rw [hdrop, htake]
    dsimp only
    rw [List.take_left' hSl, List.drop_left' hSl, if_pos ⟨rfl, hTl, hSl, hTx, hSx⟩]
  unfold Span.toSentryTrace
  cases h : s.Sampled with
  | SampledUndefined =>
    dsimp only
    exact hshape []
  | SampledTrue =>
    dsimp only
    rw [hshape ['-', '1']]
    simp
  | SampledFalse =>
    dsimp only
    rw [hshape ['-', '0']]
    simp

/-- Round trip between `toSentryTrace` and `updateFromSentryTrace`: the
header produced by a span with well-formed IDs updates any span to carry the
original TraceID, the original SpanID as ParentSpanID, and — when the
original decision was explicit — the original Sampled decision. -/
theorem updateFromSentryTrace_toSentryTrace (f s : Span)
    (hT : s.TraceID.length = 16) (hTb : ∀ b ∈ s.TraceID, b < 256)
    (hS : s.SpanID.length = 8) (hSb : ∀ b ∈ s.SpanID, b < 256)
    (hsmp : s.Sampled = SampledTrue ∨ s.Sampled = SampledFalse) :
    (f.updateFromSentryTrace s.toSentryTrace).TraceID = s.TraceID ∧
    (f.updateFromSentryTrace s.toSentryTrace).ParentSpanID = s.SpanID ∧
    (f.updateFromSentryTrace s.toSentryTrace).Sampled = s.Sampled := by
  unfold Span.updateFromSentryTrace
  rw [sentryTraceMatch_toSentryTrace s hT hTb hS hSb]
  rcases hsmp with h | h <;>
    simp [h, hexDecode_hexEncode _ hTb, hexDecode_hexEncode _ hSb]

/-- The header shape recognized by `sentryTracePattern`, stated
declaratively: 32 hex digits, a dash, 16 hex digits, and an optional dash
plus a 0-or-1 flag. -/
def SentryTracePattern (h : List Char) : Prop :=
  ∃ t sp tail, h = t ++ '-' :: (sp ++ tail) ∧ t.length = 32 ∧ sp.length = 16 ∧
    t.all isXDigit = true ∧ sp.all isXDigit = true ∧
    (tail = [] ∨ tail = ['-', '0'] ∨ tail = ['-', '1'])

/-- If the matcher accepts a header, the header has the declarative
pattern. -/
theorem sentryTraceMatch_sound (h : List Char) (m : List Char × List Char × Option Char)
    (hm : sentryTraceMatch h = some m) : SentryTracePattern h := by
  unfold sentryTraceMatch at hm
  dsimp only at hm
  split at hm
  next d rest2 heq =>
    split at hm
    next hcond =>
      obtain ⟨hd, ht, hsp, htx, hspx⟩ := hcond
      have hh : h = h.take 32 ++ '-' :: (rest2.take 16 ++ rest2.drop 16) := by
        conv_lhs => rw [← List.take_append_drop 32 h]
        rw [heq, hd, List.take_append_drop]
      split at hm
      next heq2 =>
        exact ⟨h.take 32, rest2.take 16, rest2.drop 16, hh, ht, hsp, htx, hspx, Or.inl heq2⟩
      next d2 c heq2 =>
        split at hm
        next hc =>
          obtain ⟨hd2, hc⟩ := hc
          refine ⟨h.take 32, rest2.take 16, rest2.drop 16, hh, ht, hsp, htx, hspx, ?_⟩
          rcases hc with hc | hc
          · exact Or.inr (Or.inl (by rw [heq2, hd2, hc]))
          · exact Or.inr (Or.inr (by rw [heq2, hd2, hc]))
        next => exact absurd hm (by simp)
      next => exact absurd hm (by simp)
    next => exact absurd hm (by simp)
  next => exact absurd hm (by simp)

/-- `startSpan` with a single option function is the option applied to the
defaults-plus-parent-inheritance span, followed by the sampling
resolution. -/
theorem startSpan_single (parent : Option Span) (operation : String) (now : Nat)
    (tid sid : List Nat) (g : Span → Span) (opts : ClientOptions) (draw : ℚ) :
    ∃ base : Span,
      startSpan parent operation now tid sid [g] opts draw =
        if (g base).sample parent opts draw then { g base with Sampled := SampledTrue }
        else { g base with Sampled := SampledFalse } := by
  unfold startSpan
  dsimp only [List.foldl]
  exact ⟨_, rfl⟩

/-! ## Claims -/

/-- Claim C9: For every span and every header that does not match the pattern of
32 hex digits, a dash, 16 hex digits, and an optional dash plus a 0-or-1
flag, applying the header-continuation update leaves every field of the span
unchanged. -/
theorem updateFromSentryTrace_malformed (s : Span) (h : List Char)
    (hm : ¬ SentryTracePattern h) : s.updateFromSentryTrace h = s := by
  cases heq : sentryTraceMatch h with
  | none => unfold Span.updateFromSentryTrace; rw [heq]
  | some m => exact absurd (sentryTraceMatch_sound h m heq) hm

theorem updateFromSentryTrace_malformed_witness :
    ¬ SentryTracePattern ['x'] ∧
    Span.updateFromSentryTrace {} ['x'] = ({} : Span) := by
  have hneg : ¬ SentryTracePattern ['x'] := by
    rintro ⟨t, sp, tail, heq, ht, hsp, -, -, -⟩
    have hlen := congrArg List.length heq
    simp [List.length_append] at hlen
    omega
  exact ⟨hneg, updateFromSentryTrace_malformed {} ['x'] hneg⟩

/-- Claim C1: For every span whose sampling decision is explicitly true or false,
encoding it with `ToSentryTrace` and then starting a fresh span whose
continuation option parses that header yields a fresh span whose TraceID
equals the original span's TraceID and whose Sampled equals the original
span's Sampled. -/
theorem toSentryTrace_continuation_roundtrip (s : Span) (parent : Option Span)
    (operation : String) (now : Nat) (tid sid : List Nat)
    (opts : ClientOptions) (draw : ℚ)
    (hT : s.TraceID.length = 16) (hTb : ∀ b ∈ s.TraceID, b < 256)
    (hS : s.SpanID.length = 8) (hSb : ∀ b ∈ s.SpanID, b < 256)
    (hsmp : s.Sampled = SampledTrue ∨ s.Sampled = SampledFalse) :
    (startSpan parent operation now tid sid [ContinueFromRequest s.toSentryTrace]
      opts draw).TraceID = s.TraceID ∧
    (startSpan parent operation now tid sid [ContinueFromRequest s.toSentryTrace]
      opts draw).Sampled = s.Sampled := by
  have hlen : s.toSentryTrace.length ≠ 0 := by
    cases hsm2 : s.Sampled <;>
      simp [Span.toSentryTrace, hsm2, hexEncode_length, hT, hS]
  have hne : s.toSentryTrace ≠ [] := fun hh => hlen (by rw [hh]; rfl)
  have key : ∀ f : Span,
      (ContinueFromRequest s.toSentryTrace f).TraceID = s.TraceID ∧
      (ContinueFromRequest s.toSentryTrace f).ParentSpanID = s.SpanID ∧
      (ContinueFromRequest s.toSentryTrace f).Sampled = s.Sampled := by
    intro f
    unfold ContinueFromRequest
    rw [if_neg hne]
    exact updateFromSentryTrace_toSentryTrace f s hT hTb hS hSb hsmp
  obtain ⟨base, hbase⟩ := startSpan_single parent operation now tid sid
    (ContinueFromRequest s.toSentryTrace) opts draw
  rw [hbase]
  obtain ⟨k1, k2, k3⟩ := key base
  rcases hsmp with hh | hh
  · have hC : (ContinueFromRequest s.toSentryTrace base).sample parent opts draw = true := by
      simp [Span.sample, k3, hh]
    exact ⟨by simp [hC, k1], by simp [hC, hh]⟩
  · have hC : (ContinueFromRequest s.toSentryTrace base).sample parent opts draw = false := by
      simp [Span.sample, k3, hh]
    exact ⟨by simp [hC, k1], by simp [hC, hh]⟩

theorem toSentryTrace_continuation_roundtrip_witness :
    (({ Sampled := SampledTrue } : Span).TraceID.length = 16 ∧
      (∀ b ∈ ({ Sampled := SampledTrue } : Span).TraceID, b < 256) ∧
      ({ Sampled := SampledTrue } : Span).SpanID.length = 8 ∧
      (∀ b ∈ ({ Sampled := SampledTrue } : Span).SpanID, b < 256) ∧
      ({ Sampled := SampledTrue } : Span).Sampled = SampledTrue) ∧
    (startSpan none "op" 7 (List.replicate 16 1) (List.replicate 8 2)
      [ContinueFromRequest ({ Sampled := SampledTrue } : Span).toSentryTrace]
      {} 0).TraceID = ({ Sampled := SampledTrue } : Span).TraceID ∧
    (startSpan none "op" 7 (List.replicate 16 1) (List.replicate 8 2)
      [ContinueFromRequest ({ Sampled := SampledTrue } : Span).toSentryTrace]
      {} 0).Sampled = SampledTrue := by
  refine ⟨⟨by decide, by decide, by decide, by decide, rfl⟩, ?_⟩
  exact toSentryTrace_continuation_roundtrip { Sampled := SampledTrue } none "op" 7
    (List.replicate 16 1) (List.replicate 8 2) {} 0
    (by decide) (by decide) (by decide) (by decide) (Or.inl rfl)

/-- Claim C2: The sampling decision is resolved by strict precedence: explicit
value set via options first, then a configured custom sampler, then the
parent's decision, then a fixed-rate pseudorandom decision; in particular a
span started with an option setting Sampled=true ends up sampled true
regardless of the configured sampler. -/
theorem sample_decision_precedence (s : Span) (parent : Option Span)
    (opts : ClientOptions) (draw : ℚ) (operation : String) (now : Nat)
    (tid sid : List Nat) :
    (s.Sampled = SampledTrue → s.sample parent opts draw = true) ∧
    (s.Sampled = SampledFalse → s.sample parent opts draw = false) ∧
    (∀ f, s.Sampled = SampledUndefined → opts.TracesSampler = some f →
      s.sample parent opts draw = f ⟨s, parent⟩) ∧
    (∀ p, s.Sampled = SampledUndefined → opts.TracesSampler = none → parent = some p →
      s.sample parent opts draw = decide (p.Sampled = SampledTrue)) ∧
    (s.Sampled = SampledUndefined → opts.TracesSampler = none → parent = none →
      s.sample parent opts draw = fixedRateSample opts.TracesSampleRate draw) ∧
    (startSpan parent operation now tid sid
      [fun sp => { sp with Sampled := SampledTrue }] opts draw).Sampled = SampledTrue := by
  refine ⟨?_, ?_, ?_, ?_, ?_, ?_⟩
  · intro h; simp [Span.sample, h]
  · intro h; simp [Span.sample, h]
  · intro f h hf; simp [Span.sample, h, hf]
  · rintro p h hf rfl; simp [Span.sample, h, hf]
  · rintro h hf rfl; simp [Span.sample, h, hf]
  · obtain ⟨base, hbase⟩ := startSpan_single parent operation now tid sid
      (fun sp => { sp with Sampled := SampledTrue }) opts draw
    rw [hbase]
    have hC : (({ base with Sampled := SampledTrue } : Span)).sample parent opts draw = true := by
      simp [Span.sample]
    simp [hC]

theorem sample_decision_precedence_witness :
    (({ Sampled := SampledTrue } : Span).Sampled = SampledTrue ∧
      Span.sample { Sampled := SampledTrue } none
        { TracesSampler := some fun _ => false, TracesSampleRate := 0 } 0 = true) ∧
    (({ Sampled := SampledUndefined } : Span).Sampled = SampledUndefined ∧
      ({ TracesSampler := some fun _ => false, TracesSampleRate := 0 }
        : ClientOptions).TracesSampler = some (fun _ => false) ∧
      Span.sample { Sampled := SampledUndefined } none
        { TracesSampler := some fun _ => false, TracesSampleRate := 0 } 0 = false) ∧
    (startSpan none "op" 7 (List.replicate 16 1) (List.replicate 8 2)
      [fun sp => { sp with Sampled := SampledTrue }]
      { TracesSampler := some fun _ => false, TracesSampleRate := 0 } 0).Sampled
      = SampledTrue := by
  refine ⟨⟨rfl, ?_⟩, ⟨rfl, rfl, ?_⟩, ?_⟩
  · exact (sample_decision_precedence { Sampled := SampledTrue } none
      { TracesSampler := some fun _ => false, TracesSampleRate := 0 } 0 "op" 7
      (List.replicate 16 1) (List.replicate 8 2)).1 rfl
  · exact (sample_decision_precedence { Sampled := SampledUndefined } none
      { TracesSampler := some fun _ => false, TracesSampleRate := 0 } 0 "op" 7
      (List.replicate 16 1) (List.replicate 8 2)).2.2.1 (fun _ => false) rfl rfl
  · exact (sample_decision_precedence { Sampled := SampledUndefined } none
      { TracesSampler := some fun _ => false, TracesSampleRate := 0 } 0 "op" 7
      (List.replicate 16 1) (List.replicate 8 2)).2.2.2.2.2

/-- Claim C5: StartSpan with a parent inherits the parent's TraceID, sets
ParentSpanID to the parent's SpanID and isTransaction to false; without a
parent it uses the fresh random TraceID, leaves ParentSpanID zero and sets
isTransaction to true; in both cases the fresh random SpanID is used. -/
theorem startSpan_identity_fields (parent : Option Span) (operation : String)
    (now : Nat) (tid sid : List Nat) (opts : ClientOptions) (draw : ℚ) :
    (∀ p, parent = some p →
      (startSpan parent operation now tid sid [] opts draw).TraceID = p.TraceID ∧
      (startSpan parent operation now tid sid [] opts draw).ParentSpanID = p.SpanID ∧
      (startSpan parent operation now tid sid [] opts draw).isTransaction = false ∧
      (startSpan parent operation now tid sid [] opts draw).SpanID = sid) ∧
    (parent = none →
      (startSpan parent operation now tid sid [] opts draw).TraceID = tid ∧
      (startSpan parent operation now tid sid [] opts draw).ParentSpanID = zeroSpanID ∧
      (startSpan parent operation now tid sid [] opts draw).isTransaction = true ∧
      (startSpan parent operation now tid sid [] opts draw).SpanID = sid) := by
  constructor
  · rintro p rfl
    unfold startSpan
    dsimp only [List.foldl]
    split <;> exact ⟨rfl, rfl, rfl, rfl⟩
  · rintro rfl
    unfold startSpan
    dsimp only [List.foldl]
    split <;> exact ⟨rfl, rfl, rfl, rfl⟩

theorem startSpan_identity_fields_witness :
    ((some ({ SpanID := List.replicate 8 9 } : Span) = some { SpanID := List.replicate 8 9 }) ∧
      (startSpan (some { SpanID := List.replicate 8 9 }) "op" 7 (List.replicate 16 1)
        (List.replicate 8 2) [] {} 0).TraceID = ({ SpanID := List.replicate 8 9 } : Span).TraceID ∧
      (startSpan (some { SpanID := List.replicate 8 9 }) "op" 7 (List.replicate 16 1)
        (List.replicate 8 2) [] {} 0).ParentSpanID = List.replicate 8 9 ∧
      (startSpan (some { SpanID := List.replicate 8 9 }) "op" 7 (List.replicate 16 1)
        (List.replicate 8 2) [] {} 0).isTransaction = false) ∧
    ((startSpan none "op" 7 (List.replicate 16 1) (List.replicate 8 2) [] {} 0).TraceID
        = List.replicate 16 1 ∧
      (startSpan none "op" 7 (List.replicate 16 1) (List.replicate 8 2) [] {} 0).ParentSpanID
        = zeroSpanID ∧
      (startSpan none "op" 7 (List.replicate 16 1) (List.replicate 8 2) [] {} 0).isTransaction
        = true ∧
      (startSpan none "op" 7 (List.replicate 16 1) (List.replicate 8 2) [] {} 0).SpanID
        = List.replicate 8 2) := by
  constructor
  · obtain ⟨h1, h2, h3, -⟩ := (startSpan_identity_fields
      (some { SpanID := List.replicate 8 9 }) "op" 7 (List.replicate 16 1)
      (List.replicate 8 2) {} 0).1 { SpanID := List.replicate 8 9 } rfl
    exact ⟨rfl, h1, h2, h3⟩
  · exact (startSpan_identity_fields none "op" 7 (List.replicate 16 1)
      (List.replicate 8 2) {} 0).2 rfl

/-- Folding `record` keeps the first `maxSpans` recorded spans, starting
from any recorder state with room accounted for. -/
theorem foldl_record_take (ops : List Span) : ∀ st : List Span, st.length ≤ maxSpans →
    ops.foldl record st = st ++ ops.take (maxSpans - st.length) := by
  induction ops with
  | nil => intro st h; simp
  | cons s ops ih =>
    intro st h
    rw [List.foldl_cons]
    by_cases hlt : st.length < maxSpans
    · have hrec : record st s = st ++ [s] := by unfold record; rw [if_pos hlt]
      rw [hrec, ih (st ++ [s]) (by simp; omega)]
      have hk : maxSpans - st.length = (maxSpans - st.length - 1) + 1 := by omega
      rw [hk, List.take_succ_cons, List.append_assoc]
      have hk2 : maxSpans - (st ++ [s]).length = maxSpans - st.length - 1 := by
        simp; omega
      rw [hk2]
      rfl
    · have hrec : record st s = st := by unfold record; rw [if_neg hlt]
      have hfull : maxSpans - st.length = 0 := by omega
      rw [hrec, ih st h, hfull]
      rfl

/-- Claim C6: The recorder never stores more than maxSpans (100) spans: recording
a sequence of spans into an empty recorder keeps exactly the first maxSpans
of them, and recording into a full recorder changes nothing. -/
theorem spanRecorder_cap (ops : List Span) (st : List Span) (s : Span) :
    (ops.foldl record []).length ≤ maxSpans ∧
    ops.foldl record [] = ops.take maxSpans ∧
    (maxSpans ≤ st.length → record st s = st) := by
  refine ⟨?_, ?_, ?_⟩
  · rw [foldl_record_take ops [] (by simp)]
    simp [List.length_take]
  · rw [foldl_record_take ops [] (by simp)]
    simp
  · intro h
    unfold record
    rw [if_neg (by omega)]

theorem spanRecorder_cap_witness :
    (maxSpans ≤ (List.replicate 100 ({} : Span)).length) ∧
    record (List.replicate 100 ({} : Span)) {} = List.replicate 100 ({} : Span) := by
  refine ⟨by simp [maxSpans], ?_⟩
  exact (spanRecorder_cap [] (List.replicate 100 ({} : Span)) {}).2.2 (by simp [maxSpans])

/-- The first component of `finish` only fills in a missing EndTime. -/
theorem finish_fst (s : Span) (now : Nat) (recorderSpans : List Span) (name : String) :
    (s.finish now recorderSpans name).1 =
      if s.EndTime = 0 then { s with EndTime := now } else s := by
  unfold Span.finish
  dsimp only
  split <;> split <;> first | rfl | (split <;> rfl)

/-- Claim C8: Finish sets EndTime only if it is not yet set: after Finish is
called twice, EndTime equals the value set by the first call. -/
theorem finish_endTime_once (s : Span) (now1 now2 : Nat) (rec1 rec2 : List Span)
    (name1 name2 : String) (h0 : s.EndTime = 0) (hn : now1 ≠ 0) :
    (s.finish now1 rec1 name1).1.EndTime = now1 ∧
    ((s.finish now1 rec1 name1).1.finish now2 rec2 name2).1.EndTime = now1 := by
  have h1 : (s.finish now1 rec1 name1).1 = { s with EndTime := now1 } := by
    rw [finish_fst, if_pos h0]
  constructor
  · rw [h1]
  · rw [h1, finish_fst, if_neg hn]

theorem finish_endTime_once_witness :
    (({} : Span).EndTime = 0 ∧ (5 : Nat) ≠ 0) ∧
    (Span.finish {} 5 [] "t").1.EndTime = 5 ∧
    ((Span.finish {} 5 [] "t").1.finish 9 [] "t").1.EndTime = 5 := by
  refine ⟨⟨rfl, by decide⟩, ?_⟩
  exact finish_endTime_once {} 5 9 [] [] "t" "t" rfl (by decide)

/-- Claim C3 (amended): A second call to Finish never changes the span's state and
never surfaces an error; it emits nothing when the span is not sampled-true
or is not a transaction root. (A sampled-true transaction root, however,
re-emits its transaction event on the second call: see the
counterexample.) -/
theorem finish_second_call (s : Span) (now1 now2 : Nat) (rec1 rec2 : List Span)
    (name1 name2 : String) (hn : now1 ≠ 0) :
    ((s.finish now1 rec1 name1).1.finish now2 rec2 name2).1 = (s.finish now1 rec1 name1).1 ∧
    ((s.finish now1 rec1 name1).1.Sampled ≠ SampledTrue →
      ((s.finish now1 rec1 name1).1.finish now2 rec2 name2).2 = none) ∧
    ((s.finish now1 rec1 name1).1.isTransaction = false →
      ((s.finish now1 rec1 name1).1.finish now2 rec2 name2).2 = none) := by
  have hend : (s.finish now1 rec1 name1).1.EndTime ≠ 0 := by
    rw [finish_fst]
    split
    · exact hn
    · next hne => exact hne
  generalize hgen : (s.finish now1 rec1 name1).1 = s1 at hend ⊢
  refine ⟨?_, ?_, ?_⟩
  · rw [finish_fst, if_neg hend]
  · intro hsmp
    unfold Span.finish
    rw [if_neg hend]
    dsimp only
    rw [if_pos hsmp]
  · intro htr
    by_cases hsmp : s1.Sampled ≠ SampledTrue
    · unfold Span.finish
      rw [if_neg hend]
      dsimp only
      rw [if_pos hsmp]
    · unfold Span.finish
      rw [if_neg hend]
      dsimp only
      rw [if_neg hsmp]
      have hto : s1.toEvent rec2 name2 = none := by
        unfold Span.toEvent
        rw [htr]
        rfl
      rw [hto]

theorem finish_second_call_witness :
    ((5 : Nat) ≠ 0 ∧
      ((Span.finish {} 5 [] "t").1.Sampled ≠ SampledTrue)) ∧
    ((Span.finish {} 5 [] "t").1.finish 9 [] "t").1 = (Span.finish {} 5 [] "t").1 ∧
    ((Span.finish {} 5 [] "t").1.finish 9 [] "t").2 = none := by
  have h := finish_second_call {} 5 9 [] [] "t" "t" (by decide)
  exact ⟨⟨by decide, by decide⟩, h.1, h.2.1 (by decide)⟩

/-- Claim C3 counterexample: the claim that a second Finish emits nothing fails on
a sampled-true transaction root: the second call emits the transaction event
again. -/
theorem finish_double_emits_again :
    (((({ isTransaction := true, Sampled := SampledTrue } : Span).finish 5 [] "t").1.finish
        9 [] "t").2).isSome = true := by
  rfl

/-- Claim C10: children() returns all recorded spans except the first (the root)
and none when fewer than two spans are recorded; the Spans list of a
transaction event never contains the root span, and with no children it is
empty. -/
theorem children_except_root (spans : List Span) (s : Span) (name : String) :
    children spans = spans.drop 1 ∧
    (spans.length < 2 → children spans = []) ∧
    (∀ root rest, spans = root :: rest → spans.Nodup → root ∉ children spans) ∧
    (∀ ev, s.toEvent spans name = some ev → ev.Spans = children spans) := by
  have h1 : children spans = spans.drop 1 := by
    unfold children
    split
    · next hlt =>
      match spans, hlt with
      | [], _ => rfl
      | [a], _ => rfl
      | a :: b :: t, hlt => exact absurd hlt (by simp)
    · rfl
  refine ⟨h1, ?_, ?_, ?_⟩
  · intro h
    unfold children
    rw [if_pos h]
  · rintro root rest rfl hnd
    rw [h1]
    rw [List.nodup_cons] at hnd
    simpa using hnd.1
  · intro ev hev
    unfold Span.toEvent at hev
    split at hev
    · exact absurd hev (by simp)
    · cases hev
      rfl

theorem children_except_root_witness :
    children [({ Op := "root" } : Span)] = [] ∧
    ({ Op := "root" } : Span) ∉ children [({ Op := "root" } : Span)] ∧
    (∀ ev, Span.toEvent { isTransaction := true } [({ Op := "root" } : Span)] "t" = some ev →
      ev.Spans = children [({ Op := "root" } : Span)]) := by
  have h := children_except_root [({ Op := "root" } : Span)] { isTransaction := true } "t"
  exact ⟨h.2.1 (by decide), h.2.2.1 { Op := "root" } [] rfl (by simp), h.2.2.2⟩

/-- Claim C7: The rate-limit suspension is the header's value in seconds when it
is an integer, the difference from now when it is an HTTP date, and 60
seconds when the header is absent or unparsable. -/
theorem retryAfter_spec (now : Int) (h : List Char) (d : List Char → Option Int) :
    retryAfter now none d = 60 ∧
    (∀ n, atoi h = some n → retryAfter now (some h) d = n) ∧
    (∀ t, atoi h = none → d h = some t → retryAfter now (some h) d = t - now) ∧
    (atoi h = none → d h = none → retryAfter now (some h) d = 60) := by
  refine ⟨rfl, ?_, ?_, ?_⟩
  · intro n hn
    unfold retryAfter
    dsimp only
    rw [hn]
  · intro t hn ht
    unfold retryAfter
    dsimp only
    rw [hn, ht]
  · intro hn hd
    unfold retryAfter
    dsimp only
    rw [hn, hd]

theorem retryAfter_spec_witness :
    (atoi ['1', '2', '0'] = some 120 ∧
      retryAfter 0 (some ['1', '2', '0']) (fun _ => none) = 120) ∧
    (atoi ['W', 'e', 'd'] = none ∧
      retryAfter 100 (some ['W', 'e', 'd']) (fun _ => some 113) = 13) ∧
    retryAfter 0 none (fun _ => none) = 60 ∧
    (atoi ['x'] = none ∧ retryAfter 0 (some ['x']) (fun _ => none) = 60) := by
  refine ⟨⟨by decide, ?_⟩, ⟨by decide, ?_⟩, ?_, ⟨by decide, ?_⟩⟩
  · exact (retryAfter_spec 0 ['1', '2', '0'] fun _ => none).2.1 120 (by decide)
  · have h := (retryAfter_spec 100 ['W', 'e', 'd']
      fun _ => some 113).2.2.1 113 (by decide) rfl
    rw [h]
    decide
  · exact (retryAfter_spec 0 ['x'] fun _ => none).1
  · exact (retryAfter_spec 0 ['x'] fun _ => none).2.2.2 (by decide) rfl

/-- Stripping Breadcrumbs/Extra/Contexts leaves serializability depending
only on the Exception stack-frame vars. -/
theorem eventSerializable_stripEvent (e : Event) :
    eventSerializable (stripEvent e) = exceptionSerializable e := by
  simp [eventSerializable, stripEvent, exceptionSerializable, mapSerializable,
    GoValue.serializable]

/-- Claim C4: When full serialization fails, the serializer retries after
stripping Breadcrumbs, Extra and Contexts and inserting a diagnostic note in
Extra; the retry succeeds whenever the failure was in the free-form maps,
and when the failure is inside Exception stack-frame variables the event is
dropped entirely (no body is produced). -/
theorem getRequestBody_fallback (e : Event) (hfail : eventSerializable e = false) :
    (exceptionSerializable e = true →
      getRequestBodyFromEvent e = some (stripEvent e) ∧
      (stripEvent e).Breadcrumbs = [] ∧
      (stripEvent e).Contexts = [] ∧
      (stripEvent e).Extra = [("info", GoValue.str marshalFallbackNote)]) ∧
    (exceptionSerializable e = false → getRequestBodyFromEvent e = none) := by
  constructor
  · intro hex
    refine ⟨?_, rfl, rfl, rfl⟩
    unfold getRequestBodyFromEvent
    rw [if_neg (by simp [hfail])]
    dsimp only
    rw [if_pos (by rw [eventSerializable_stripEvent, hex])]
  · intro hex
    unfold getRequestBodyFromEvent
    rw [if_neg (by simp [hfail])]
    dsimp only
    rw [if_neg (by rw [eventSerializable_stripEvent, hex]; simp)]

theorem getRequestBody_fallback_witness :
    (eventSerializable { Message := "mkey", Breadcrumbs := [{ Data := [("wat", GoValue.fn)] }] } = false ∧
      exceptionSerializable { Message := "mkey", Breadcrumbs := [{ Data := [("wat", GoValue.fn)] }] } = true ∧
      getRequestBodyFromEvent { Message := "mkey", Breadcrumbs := [{ Data := [("wat", GoValue.fn)] }] } =
        some (stripEvent { Message := "mkey", Breadcrumbs := [{ Data := [("wat", GoValue.fn)] }] })) ∧
    (eventSerializable { Exception := [{ Stacktrace := some { Frames := [{ Vars := [("wat", GoValue.fn)] }] } }] } = false ∧
      exceptionSerializable { Exception := [{ Stacktrace := some { Frames := [{ Vars := [("wat", GoValue.fn)] }] } }] } = false ∧
      getRequestBodyFromEvent { Exception := [{ Stacktrace := some { Frames := [{ Vars := [("wat", GoValue.fn)] }] } }] } = none) := by
  constructor
  · refine ⟨by decide, by decide, ?_⟩
    exact ((getRequestBody_fallback
      { Message := "mkey", Breadcrumbs := [{ Data := [("wat", GoValue.fn)] }] }
      (by decide)).1 (by decide)).1
  · refine ⟨by decide, by decide, ?_⟩
    exact (getRequestBody_fallback
      { Exception := [{ Stacktrace := some { Frames := [{ Vars := [("wat", GoValue.fn)] }] } }] }
      (by decide)).2 (by decide)

end Sentry
